import Mathlib

/-!
# Kube-Janitor: pod cleanup controller

A shallow embedding of `controller/pod_cleanup.go`: the seen-set `seenPods`,
`isSeenBefore`, `markAsSeen`, `evaluatePod`, `deletePod`, `handleAdd` and
`handleUpdate`.

The controller's state is the key set of the `sync.Map` `seenPods`, the
`deletePod` goroutines that were started and have not returned, and the
ordered record of the effects performed on the outside world: seen-set
writes, Slack messages, goroutine starts, the grace-period sleep and the
cluster delete call.  Lines written to standard output with `fmt.Printf`
touch none of these and are left out of the record.
-/

namespace KubeJanitor

/-! ## Data model (the fields of `corev1.Pod` that the controller reads) -/

/-- The Kubernetes type `types.UID`, a string. -/
abbrev UID := String

/-- The type `corev1.ContainerStateWaiting`. -/
structure ContainerStateWaiting where
  Reason : String
  deriving DecidableEq, Repr

/-- The type `corev1.ContainerState`; `Waiting` is a pointer, nil is `none`. -/
structure ContainerState where
  Waiting : Option ContainerStateWaiting
  deriving DecidableEq, Repr

/-- The type `corev1.ContainerStatus`; `RestartCount` is an `int32`. -/
structure ContainerStatus where
  State : ContainerState
  RestartCount : Int
  deriving DecidableEq, Repr

/-- The type `corev1.PodStatus`. -/
structure PodStatus where
  Phase : String
  Reason : String
  ContainerStatuses : List ContainerStatus
  deriving DecidableEq, Repr

/-- The type `corev1.Pod`. -/
structure Pod where
  UID : UID
  Namespace : String
  Name : String
  Status : PodStatus
  deriving DecidableEq, Repr

/-- The constant `corev1.PodFailed`. -/
def PodFailed : String := "Failed"

/-- The type `metav1.Preconditions`. -/
structure Preconditions where
  UID : Option UID
  ResourceVersion : Option String
  deriving DecidableEq, Repr

/-- The type `metav1.DeleteOptions`. -/
structure DeleteOptions where
  GracePeriodSeconds : Option Int
  Preconditions : Option Preconditions
  OrphanDependents : Option Bool
  PropagationPolicy : Option String
  DryRun : List String
  deriving DecidableEq, Repr

/-- The literal `metav1.DeleteOptions{}`: every field at its zero value. -/
def DeleteOptions.empty : DeleteOptions :=
  { GracePeriodSeconds := none, Preconditions := none, OrphanDependents := none,
    PropagationPolicy := none, DryRun := [] }

/-- One call `c.clientset.CoreV1().Pods(namespace).Delete(ctx, name, options)`. -/
structure DeleteRequest where
  Namespace : String
  Name : String
  Options : DeleteOptions
  deriving DecidableEq, Repr

/-- One Slack message: the arguments given to `slackFn.BuildSlackAttachment`,
whose attachment is handed to `c.clientSlack.PostMessage`. -/
structure Notification where
  eventType : String
  pod : Pod
  restartCount : Int
  deriving DecidableEq, Repr

/-- The effects the controller performs, in the order it performs them. -/
inductive Effect where
  /-- `seenPods.Store(uid, struct{}{})` -/
  | store (uid : UID)
  /-- `seenPods.Delete(uid)` -/
  | delete (uid : UID)
  /-- `c.clientSlack.PostMessage(c.channelID, ...)` -/
  | postMessage (n : Notification)
  /-- `go c.deletePod(pod)` -/
  | go (pod : Pod)
  /-- `time.Sleep(seconds * time.Second)` -/
  | sleep (seconds : Nat)
  /-- `c.clientset.CoreV1().Pods(ns).Delete(...)` -/
  | apiDelete (req : DeleteRequest)
  deriving DecidableEq, Repr

/-- The controller's state. -/
structure World where
  /-- the keys of the `sync.Map` `seenPods` -/
  seenPods : List UID
  /-- the `deletePod` goroutines started and not yet returned -/
  goroutines : List Pod
  /-- every effect performed so far, oldest first -/
  trace : List Effect
  deriving DecidableEq, Repr

/-- The state at process start: nothing seen, nothing running, nothing done. -/
def World.init : World := { seenPods := [], goroutines := [], trace := [] }

/-! ## Views of the effect record -/

/-- The effects performed between state `w` and a later state `w1`. -/
def emitted (w w1 : World) : List Effect := w1.trace.drop w.trace.length

/-- The Slack messages among a list of effects. -/
def posts : List Effect → List Notification
  | [] => []
  | Effect.postMessage n :: es => n :: posts es
  | _ :: es => posts es

/-- The goroutines started among a list of effects. -/
def spawns : List Effect → List Pod
  | [] => []
  | Effect.go p :: es => p :: spawns es
  | _ :: es => spawns es

/-- The cluster delete calls among a list of effects. -/
def deleteCalls : List Effect → List DeleteRequest
  | [] => []
  | Effect.apiDelete r :: es => r :: deleteCalls es
  | _ :: es => deleteCalls es

/-! ## The seen-set (`pod_cleanup.go`, lines 49-50 and 207-214) -/

/-- The function `isSeenBefore`: `seenPods.Load(uid)` finds the key. -/
def isSeenBefore (w : World) (uid : UID) : Bool := decide (uid ∈ w.seenPods)

/-- The function `markAsSeen`: `seenPods.Store(uid, struct{}{})`. -/
def markAsSeen (w : World) (uid : UID) : World :=
  { w with seenPods := w.seenPods.insert uid, trace := w.trace ++ [Effect.store uid] }

/-- The call `seenPods.Delete(uid)`. -/
def seenPodsDelete (w : World) (uid : UID) : World :=
  { w with seenPods := w.seenPods.filter (fun u => decide (u ≠ uid)),
           trace := w.trace ++ [Effect.delete uid] }

/-! ## Outside world -/

/-- The call `c.clientSlack.PostMessage` on the attachment built from `n`; its
result is ignored by the controller. -/
def PostMessage (w : World) (n : Notification) : World :=
  { w with trace := w.trace ++ [Effect.postMessage n] }

/-- The statement `go c.deletePod(pod)`. -/
def goDeletePod (w : World) (pod : Pod) : World :=
  { w with goroutines := w.goroutines ++ [pod], trace := w.trace ++ [Effect.go pod] }

/-- The call `time.Sleep`. -/
def Sleep (w : World) (seconds : Nat) : World :=
  { w with trace := w.trace ++ [Effect.sleep seconds] }

/-- The cluster call `Pods(ns).Delete(ctx, name, opts)`. -/
def Delete (w : World) (req : DeleteRequest) : World :=
  { w with trace := w.trace ++ [Effect.apiDelete req] }

/-! ## `evaluatePod` (lines 132-176) -/

/-- The condition of line 152:
`cs.State.Waiting != nil && cs.State.Waiting.Reason == "CrashLoopBackOff" && cs.RestartCount >= 5`. -/
def isCrashLooping (cs : ContainerStatus) : Bool :=
  match cs.State.Waiting with
  | none => false
  | some wt => decide (wt.Reason = "CrashLoopBackOff") && decide (cs.RestartCount ≥ 5)

/-- The loop of lines 151-164 over `pod.Status.ContainerStatuses`, followed by
the fall-through of lines 166-175 (which only prints). -/
def evaluateContainers (w : World) (pod : Pod) : List ContainerStatus → World
  | [] => w
  | cs :: rest =>
    if isCrashLooping cs then
      goDeletePod
        (PostMessage (markAsSeen w pod.UID) ⟨"CrashLoopBackOff", pod, cs.RestartCount⟩) pod
    else evaluateContainers w pod rest

/-- Lines 137-175: what `evaluatePod` does once `isSeenBefore` has returned
false. -/
def evaluateBody (w : World) (pod : Pod) : World :=
  if pod.Status.Phase = PodFailed ∨ pod.Status.Reason = "Evicted" then
    goDeletePod (PostMessage (markAsSeen w pod.UID) ⟨"FailedOrEvicted", pod, 0⟩) pod
  else evaluateContainers w pod pod.Status.ContainerStatuses

/-- The method `evaluatePod`. -/
def evaluatePod (w : World) (pod : Pod) : World :=
  if isSeenBefore w pod.UID then w else evaluateBody w pod

/-! ## `deletePod` (lines 178-205) -/

/-- The method `deletePod`.  `err` is what the cluster delete call returns:
`none` for a nil error. -/
def deletePod (w : World) (pod : Pod) (err : Option String) : World :=
  let w1 := Sleep w 20
  let w2 := Delete w1 ⟨pod.Namespace, pod.Name, DeleteOptions.empty⟩
  let w3 := match err with
    | some _ => PostMessage w2 ⟨"FailedToDelete", pod, 0⟩
    | none => PostMessage w2 ⟨"Deleted", pod, 0⟩
  seenPodsDelete w3 pod.UID

/-- A goroutine started by `go c.deletePod(pod)` runs `deletePod` and returns. -/
def completeDelete (w : World) (pod : Pod) (err : Option String) : World :=
  { deletePod w pod err with goroutines := w.goroutines.erase pod }

/-! ## Event handlers (lines 112-130) -/

/-- A value of type `interface{}` handed to a handler: a `*corev1.Pod` or
something else. -/
inductive Obj where
  | pod (p : Pod)
  | other
  deriving DecidableEq, Repr

/-- The method `handleAdd`. -/
def handleAdd (w : World) (obj : Obj) : World :=
  match obj with
  | Obj.pod p => evaluatePod w p
  | Obj.other => w

/-- The method `handleUpdate`: after the type assertion it only prints. -/
def handleUpdate (w : World) (_oldObj newObj : Obj) : World :=
  match newObj with
  | Obj.pod _ => w
  | Obj.other => w

/-! ## The remediation state machine -/

/-- One step of the controller: `evaluatePod` runs on some pod, or a started
`deletePod` goroutine runs to its end with some outcome of the delete call. -/
inductive Step : World → World → Prop where
  | evaluate (w : World) (pod : Pod) : Step w (evaluatePod w pod)
  | complete (w : World) (pod : Pod) (err : Option String) :
      pod ∈ w.goroutines → Step w (completeDelete w pod err)

/-- The states the controller can be in, starting from `World.init`. -/
inductive Reachable : World → Prop where
  | start : Reachable World.init
  | next {w w1 : World} : Reachable w → Step w w1 → Reachable w1

/-! ## Concurrent evaluations, one seen-set operation at a time -/

/-- Where one call of `evaluatePod` stands. -/
inductive EvalPc where
  /-- before line 133 -/
  | entry
  /-- `isSeenBefore` has returned false (line 133); lines 137-175 are still to run -/
  | checked
  /-- returned -/
  | done
  deriving DecidableEq, Repr

/-- One call of `evaluatePod` in progress. -/
structure Thread where
  pod : Pod
  pc : EvalPc
  deriving DecidableEq, Repr

/-- One move of one call: the `Load` of line 133, or the rest of the body
(which holds the `Store`). -/
def threadStep (w : World) (t : Thread) : World × Thread :=
  match t.pc with
  | EvalPc.entry =>
    if isSeenBefore w t.pod.UID then (w, { t with pc := EvalPc.done })
    else (w, { t with pc := EvalPc.checked })
  | EvalPc.checked => (evaluateBody w t.pod, { t with pc := EvalPc.done })
  | EvalPc.done => (w, t)

/-- The shared state and the calls in progress. -/
structure Config where
  world : World
  threads : List Thread
  deriving DecidableEq, Repr

/-- One move of the scheduler: call number `i` of `evaluatePod` makes its next
move, or a started `deletePod` goroutine runs to its end with some result of
the delete call. -/
inductive Move where
  | eval (i : Nat)
  | finish (pod : Pod) (err : Option String)
  deriving DecidableEq, Repr

/-- The scheduler makes one move.  A call number out of range, a call that has
returned and a goroutine that is not running change nothing. -/
def schedStep (c : Config) (m : Move) : Config :=
  match m with
  | Move.eval i =>
    match c.threads[i]? with
    | none => c
    | some t => ⟨(threadStep c.world t).1, c.threads.set i (threadStep c.world t).2⟩
  | Move.finish pod err =>
    if pod ∈ c.world.goroutines then ⟨completeDelete c.world pod err, c.threads⟩ else c

/-- The moves of a whole schedule, in order. -/
def runSchedule (c : Config) (sched : List Move) : Config := sched.foldl schedStep c

/-- Every pod of the list gets its own call of `evaluatePod`, none started yet. -/
def startAll (w : World) (pods : List Pod) : Config :=
  ⟨w, pods.map (fun p => ⟨p, EvalPc.entry⟩)⟩

/-- The number of calls that have done their check (line 133) and not yet run
the rest of the body, which holds the mark. -/
def checkedCount (ts : List Thread) : Nat :=
  (ts.filter (fun t => decide (t.pc = EvalPc.checked))).length

/-- Every call has returned. -/
def allDone (ts : List Thread) : Bool :=
  ts.all (fun t => decide (t.pc = EvalPc.done))

/-- At no point of the schedule, from its start to its end, are two calls both
between their check and their mark. -/
def exclusive (c : Config) : List Move → Bool
  | [] => decide (checkedCount c.threads ≤ 1)
  | m :: rest => decide (checkedCount c.threads ≤ 1) && exclusive (schedStep c m) rest

/-! ## Sample pods -/

/-- A pod with the given identity, phase, reason and container statuses. -/
def mkPod (uid ns name phase reason : String) (cs : List ContainerStatus) : Pod :=
  { UID := uid, Namespace := ns, Name := name,
    Status := { Phase := phase, Reason := reason, ContainerStatuses := cs } }

/-- A container status waiting with the given reason and restart count. -/
def waitingStatus (reason : String) (restarts : Int) : ContainerStatus :=
  { State := { Waiting := some { Reason := reason } }, RestartCount := restarts }

/-- A container status that is not waiting. -/
def runningStatus (restarts : Int) : ContainerStatus :=
  { State := { Waiting := none }, RestartCount := restarts }

/-- Phase `Failed`, with a container crash-looping after 7 restarts. -/
def podFailedCrash : Pod :=
  mkPod "uid-1" "default" "web" "Failed" "" [waitingStatus "CrashLoopBackOff" 7]

/-- Phase `Running`; the first container is not waiting (9 restarts), the
second crash-loops below the threshold, the third and fourth past it. -/
def podCrashLoop : Pod :=
  mkPod "uid-2" "default" "api" "Running" ""
    [runningStatus 9, waitingStatus "CrashLoopBackOff" 3,
     waitingStatus "CrashLoopBackOff" 7, waitingStatus "CrashLoopBackOff" 9]

/-- Phase `Running`; the only crash-looping container has 3 restarts. -/
def podThreeRestarts : Pod :=
  mkPod "uid-3" "default" "job" "Running" "" [waitingStatus "CrashLoopBackOff" 3]

/-- A recreated pod: namespace and name of `podFailedCrash`, a new UID. -/
def podRecreated : Pod :=
  mkPod "uid-9" "default" "web" "Failed" "" []

/-! ## Predicates and shorthands used in the statements -/

/-- Line 152 as a proposition: a non-nil waiting state whose reason is
`CrashLoopBackOff`, and a restart count of at least 5. -/
def CrashLoopEntry (cs : ContainerStatus) : Prop :=
  ∃ wt, cs.State.Waiting = some wt ∧ wt.Reason = "CrashLoopBackOff" ∧ 5 ≤ cs.RestartCount

/-- The three statements both detection branches run (lines 139-146 and
153-161): `markAsSeen(pod.UID)`, `PostMessage` of the attachment for `n`,
`go c.deletePod(pod)`. -/
def remediate (w : World) (pod : Pod) (n : Notification) : World :=
  goDeletePod (PostMessage (markAsSeen w pod.UID) n) pod

/-- A pod for which the condition of line 138 holds, or the condition of line
152 for one of its container statuses. -/
def Offending (pod : Pod) : Prop :=
  pod.Status.Phase = PodFailed ∨ pod.Status.Reason = "Evicted" ∨
    ∃ cs ∈ pod.Status.ContainerStatuses, CrashLoopEntry cs

/-- A message of one of the two kinds `deletePod` sends (lines 193 and 200). -/
def isOutcome (n : Notification) : Bool :=
  decide (n.eventType = "Deleted") || decide (n.eventType = "FailedToDelete")

/-- The kind of the message `deletePod` sends: line 193 when `err != nil`,
line 200 otherwise. -/
def outcomeKind (err : Option String) : String :=
  match err with
  | some _ => "FailedToDelete"
  | none => "Deleted"

/-- The detection messages among a list of effects: those `evaluatePod` sends,
not the outcome messages of `deletePod`. -/
def detections (es : List Effect) : List Notification :=
  (posts es).filter (fun n => !isOutcome n)

/-- Where a run of concurrent calls on pods of UID `u`, started in world `w`,
stands: `es` are the effects since the start.  Either `u` is unmarked, no call
has returned and nothing was sent or started; or `u` is marked, no call is
between check and mark, and one call has sent one detection message and
started one `deletePod`. -/
def Phase (w : World) (u : UID) (c : Config) : Prop :=
  ∃ es, c.world.trace = w.trace ++ es ∧
    ((u ∉ c.world.seenPods ∧ (∀ t ∈ c.threads, t.pc ≠ EvalPc.done) ∧
        spawns es = [] ∧ detections es = []) ∨
     (u ∈ c.world.seenPods ∧ checkedCount c.threads = 0 ∧
        ∃ p n, p ∈ c.threads.map Thread.pod ∧ spawns es = [p] ∧ detections es = [n] ∧
          n.pod = p))

/-! ## Basic facts about the embedding -/

theorem isCrashLooping_iff (cs : ContainerStatus) :
    isCrashLooping cs = true ↔ CrashLoopEntry cs := by
  unfold isCrashLooping CrashLoopEntry
  cases h : cs.State.Waiting with
  | none => simp
  | some wt => simp

theorem emitted_of_trace {w w1 : World} {es : List Effect}
    (h : w1.trace = w.trace ++ es) : emitted w w1 = es := by
  simp [emitted, h]

theorem emitted_self (w : World) : emitted w w = [] := by
  simp [emitted]

theorem remediate_trace (w : World) (pod : Pod) (n : Notification) :
    (remediate w pod n).trace
      = w.trace ++ [Effect.store pod.UID, Effect.postMessage n, Effect.go pod] := by
  simp [remediate, goDeletePod, PostMessage, markAsSeen]

theorem remediate_seenPods (w : World) (pod : Pod) (n : Notification) :
    (remediate w pod n).seenPods = w.seenPods.insert pod.UID := by
  simp [remediate, goDeletePod, PostMessage, markAsSeen]

theorem remediate_goroutines (w : World) (pod : Pod) (n : Notification) :
    (remediate w pod n).goroutines = w.goroutines ++ [pod] := by
  simp [remediate, goDeletePod, PostMessage, markAsSeen]

theorem evaluateContainers_none (w : World) (pod : Pod) (l : List ContainerStatus)
    (h : ∀ cs ∈ l, ¬ CrashLoopEntry cs) : evaluateContainers w pod l = w := by
  induction l with
  | nil => rfl
  | cons c rest ih =>
    have hc : isCrashLooping c = false := by
      have := h c (List.mem_cons_self _ _)
      rw [← isCrashLooping_iff] at this
      simpa using this
    simp only [evaluateContainers, hc]
    exact ih (fun cs hcs => h cs (List.mem_cons_of_mem _ hcs))

theorem evaluateContainers_first (w : World) (pod : Pod)
    (pre : List ContainerStatus) (cs : ContainerStatus) (rest : List ContainerStatus)
    (hpre : ∀ c ∈ pre, ¬ CrashLoopEntry c) (hcs : CrashLoopEntry cs) :
    evaluateContainers w pod (pre ++ cs :: rest)
      = remediate w pod ⟨"CrashLoopBackOff", pod, cs.RestartCount⟩ := by
  induction pre with
  | nil =>
    have : isCrashLooping cs = true := (isCrashLooping_iff cs).2 hcs
    simp [evaluateContainers, this, remediate]
  | cons c pre ih =>
    have hc : isCrashLooping c = false := by
      have := hpre c (List.mem_cons_self _ _)
      rw [← isCrashLooping_iff] at this
      simpa using this
    simp only [List.cons_append, evaluateContainers, hc]
    exact ih (fun x hx => hpre x (List.mem_cons_of_mem _ hx))

/-- A list with a crash-looping entry splits at its first such entry. -/
theorem exists_first_crashLoop (l : List ContainerStatus)
    (h : ∃ cs ∈ l, CrashLoopEntry cs) :
    ∃ pre cs rest, l = pre ++ cs :: rest ∧ (∀ c ∈ pre, ¬ CrashLoopEntry c) ∧
      CrashLoopEntry cs := by
  induction l with
  | nil => simp at h
  | cons c l ih =>
    by_cases hc : CrashLoopEntry c
    · exact ⟨[], c, l, rfl, by simp, hc⟩
    · have h2 : ∃ cs ∈ l, CrashLoopEntry cs := by
        obtain ⟨cs, hmem, hcs⟩ := h
        rcases List.mem_cons.1 hmem with heq | hin
        · exact absurd (heq ▸ hcs) hc
        · exact ⟨cs, hin, hcs⟩
      obtain ⟨pre, cs, rest, hl, hpre, hcs⟩ := ih h2
      refine ⟨c :: pre, cs, rest, by simp [hl], ?_, hcs⟩
      intro x hx
      rcases List.mem_cons.1 hx with heq | hin
      · exact heq ▸ hc
      · exact hpre x hin

theorem evaluatePod_unseen (w : World) (pod : Pod) (h : pod.UID ∉ w.seenPods) :
    evaluatePod w pod = evaluateBody w pod := by
  simp [evaluatePod, isSeenBefore, h]

theorem evaluatePod_seen (w : World) (pod : Pod) (h : pod.UID ∈ w.seenPods) :
    evaluatePod w pod = w := by
  simp [evaluatePod, isSeenBefore, h]

theorem evaluateBody_terminal (w : World) (pod : Pod)
    (h : pod.Status.Phase = PodFailed ∨ pod.Status.Reason = "Evicted") :
    evaluateBody w pod = remediate w pod ⟨"FailedOrEvicted", pod, 0⟩ := by
  simp [evaluateBody, h, remediate]

theorem evaluateBody_other (w : World) (pod : Pod)
    (h1 : pod.Status.Phase ≠ PodFailed) (h2 : pod.Status.Reason ≠ "Evicted") :
    evaluateBody w pod = evaluateContainers w pod pod.Status.ContainerStatuses := by
  simp [evaluateBody, h1, h2]

/-! ## Classification and detection -/

/-- C1: a pod not yet in the seen-set whose phase is `Failed` or whose status
reason is `Evicted` is handled as a terminal failure whatever its container
statuses are: its UID is marked (and nothing else changes in the seen-set),
the effects performed are exactly the mark, one `FailedOrEvicted` message with
restart detail 0 and one start of `deletePod` for that pod, and no message of
kind `CrashLoopBackOff` is sent. -/
theorem evaluatePod_failed_or_evicted (w : World) (pod : Pod)
    (hseen : pod.UID ∉ w.seenPods)
    (hterm : pod.Status.Phase = PodFailed ∨ pod.Status.Reason = "Evicted") :
    pod.UID ∈ (evaluatePod w pod).seenPods ∧
    (∀ u, u ∈ (evaluatePod w pod).seenPods ↔ u = pod.UID ∨ u ∈ w.seenPods) ∧
    (evaluatePod w pod).trace
      = w.trace ++ [Effect.store pod.UID,
                    Effect.postMessage ⟨"FailedOrEvicted", pod, 0⟩, Effect.go pod] ∧
    posts (emitted w (evaluatePod w pod)) = [⟨"FailedOrEvicted", pod, 0⟩] ∧
    spawns (emitted w (evaluatePod w pod)) = [pod] ∧
    (evaluatePod w pod).goroutines = w.goroutines ++ [pod] ∧
    (∀ n ∈ posts (emitted w (evaluatePod w pod)), n.eventType ≠ "CrashLoopBackOff") := by
  have hev : evaluatePod w pod = remediate w pod ⟨"FailedOrEvicted", pod, 0⟩ := by
    rw [evaluatePod_unseen w pod hseen, evaluateBody_terminal w pod hterm]
  have hem := emitted_of_trace (remediate_trace w pod ⟨"FailedOrEvicted", pod, 0⟩)
  rw [hev, hem]
  refine ⟨?_, ?_, remediate_trace _ _ _, ?_, ?_, remediate_goroutines _ _ _, ?_⟩
  · simp [remediate_seenPods]
  · intro u
    simp [remediate_seenPods]
  · simp [posts]
  · simp [spawns]
  · simp [posts]

/-- C1 at `podFailedCrash`, which is `Failed` and also has a container
crash-looping after 7 restarts. -/
theorem evaluatePod_failed_or_evicted_witness :
    posts (emitted World.init (evaluatePod World.init podFailedCrash))
      = [⟨"FailedOrEvicted", podFailedCrash, 0⟩] ∧
    CrashLoopEntry (waitingStatus "CrashLoopBackOff" 7) :=
  ⟨(evaluatePod_failed_or_evicted World.init podFailedCrash (by decide)
      (Or.inl (by decide))).2.2.2.1,
   ⟨_, rfl, by decide, by decide⟩⟩

/-- C2: for a pod not yet in the seen-set whose phase is not `Failed` and whose
reason is not `Evicted`, a `CrashLoopBackOff` message is sent exactly when some
container status has a non-nil waiting state with reason `CrashLoopBackOff`
and a restart count of at least 5; an entry with nil waiting state or fewer
than 5 restarts is no such entry; without one (so also for an empty list) the
state is left as it was; with one, the effects are exactly the mark, one
`CrashLoopBackOff` message carrying the restart count of the first such entry
of the list, and one start of `deletePod`. -/
theorem evaluatePod_crash_loop (w : World) (pod : Pod)
    (hseen : pod.UID ∉ w.seenPods)
    (hphase : pod.Status.Phase ≠ PodFailed) (hreason : pod.Status.Reason ≠ "Evicted") :
    ((∃ n, posts (emitted w (evaluatePod w pod)) = [⟨"CrashLoopBackOff", pod, n⟩]) ↔
      ∃ cs ∈ pod.Status.ContainerStatuses,
        ∃ wt, cs.State.Waiting = some wt ∧ wt.Reason = "CrashLoopBackOff" ∧
          5 ≤ cs.RestartCount) ∧
    (∀ cs : ContainerStatus, cs.State.Waiting = none ∨ cs.RestartCount < 5 →
      ¬ CrashLoopEntry cs ∧ isCrashLooping cs = false) ∧
    ((∀ cs ∈ pod.Status.ContainerStatuses, ¬ CrashLoopEntry cs) → evaluatePod w pod = w) ∧
    (pod.Status.ContainerStatuses = [] → evaluatePod w pod = w) ∧
    (∀ pre cs rest, pod.Status.ContainerStatuses = pre ++ cs :: rest →
      (∀ c ∈ pre, ¬ CrashLoopEntry c) → CrashLoopEntry cs →
      (evaluatePod w pod).trace
        = w.trace ++ [Effect.store pod.UID,
            Effect.postMessage ⟨"CrashLoopBackOff", pod, cs.RestartCount⟩, Effect.go pod] ∧
      posts (emitted w (evaluatePod w pod)) = [⟨"CrashLoopBackOff", pod, cs.RestartCount⟩] ∧
      spawns (emitted w (evaluatePod w pod)) = [pod] ∧
      pod.UID ∈ (evaluatePod w pod).seenPods) := by
  have hev : evaluatePod w pod = evaluateContainers w pod pod.Status.ContainerStatuses := by
    rw [evaluatePod_unseen w pod hseen, evaluateBody_other w pod hphase hreason]
  have hfirst : ∀ pre cs rest, pod.Status.ContainerStatuses = pre ++ cs :: rest →
      (∀ c ∈ pre, ¬ CrashLoopEntry c) → CrashLoopEntry cs →
      evaluatePod w pod = remediate w pod ⟨"CrashLoopBackOff", pod, cs.RestartCount⟩ := by
    intro pre cs rest hl hpre hcs
    rw [hev, hl]
    exact evaluateContainers_first w pod pre cs rest hpre hcs
  have hnone : (∀ cs ∈ pod.Status.ContainerStatuses, ¬ CrashLoopEntry cs) →
      evaluatePod w pod = w := by
    intro h
    rw [hev]
    exact evaluateContainers_none w pod _ h
  refine ⟨⟨?_, ?_⟩, ?_, hnone, ?_, ?_⟩
  · rintro ⟨n, hn⟩
    by_contra hno
    have hall : ∀ cs ∈ pod.Status.ContainerStatuses, ¬ CrashLoopEntry cs := by
      intro cs hcs hent
      exact hno ⟨cs, hcs, hent⟩
    rw [hnone hall, emitted_self] at hn
    simp [posts] at hn
  · intro h
    obtain ⟨pre, cs, rest, hl, hpre, hcs⟩ := exists_first_crashLoop _ h
    refine ⟨cs.RestartCount, ?_⟩
    rw [hfirst pre cs rest hl hpre hcs, emitted_of_trace (remediate_trace _ _ _)]
    simp [posts]
  · intro cs h
    have hnot : ¬ CrashLoopEntry cs := by
      rintro ⟨wt, hw, _, hr⟩
      rcases h with h | h
      · rw [h] at hw
        exact Option.noConfusion hw
      · omega
    refine ⟨hnot, ?_⟩
    rw [← isCrashLooping_iff] at hnot
    simpa using hnot
  · intro hnil
    apply hnone
    rw [hnil]
    simp
  · intro pre cs rest hl hpre hcs
    rw [hfirst pre cs rest hl hpre hcs, emitted_of_trace (remediate_trace _ _ _)]
    refine ⟨remediate_trace _ _ _, by simp [posts], by simp [spawns], ?_⟩
    simp [remediate_seenPods]

/-- C2 at `podCrashLoop`: the first entry is not waiting, the second has 3
restarts, the third 7 and the fourth 9; the message carries 7. -/
theorem evaluatePod_crash_loop_witness :
    posts (emitted World.init (evaluatePod World.init podCrashLoop))
      = [⟨"CrashLoopBackOff", podCrashLoop, 7⟩] :=
  ((evaluatePod_crash_loop World.init podCrashLoop (by decide) (by decide)
      (by decide)).2.2.2.2
    [runningStatus 9, waitingStatus "CrashLoopBackOff" 3]
    (waitingStatus "CrashLoopBackOff" 7)
    [waitingStatus "CrashLoopBackOff" 9] rfl
    (fun c hc hent => Bool.noConfusion
      (((isCrashLooping_iff c).2 hent).symm.trans
        ((by decide : ∀ c ∈ [runningStatus 9, waitingStatus "CrashLoopBackOff" 3],
            isCrashLooping c = false) c hc)))
    ⟨_, rfl, by decide, by decide⟩).2.1

/-- C3: a pod that matches neither policy (phase not `Failed`, reason not
`Evicted`, no container status waiting in `CrashLoopBackOff` with at least 5
restarts) leaves the whole state as it was: the seen-set is unchanged, so no
entry appears for its UID, no message is sent and no `deletePod` is started. -/
theorem evaluatePod_healthy (w : World) (pod : Pod)
    (hphase : pod.Status.Phase ≠ PodFailed) (hreason : pod.Status.Reason ≠ "Evicted")
    (hcs : ∀ cs ∈ pod.Status.ContainerStatuses,
      ¬ ∃ wt, cs.State.Waiting = some wt ∧ wt.Reason = "CrashLoopBackOff" ∧
          5 ≤ cs.RestartCount) :
    evaluatePod w pod = w ∧
    (evaluatePod w pod).seenPods = w.seenPods ∧
    (pod.UID ∉ w.seenPods → pod.UID ∉ (evaluatePod w pod).seenPods) ∧
    emitted w (evaluatePod w pod) = [] ∧
    posts (emitted w (evaluatePod w pod)) = [] ∧
    spawns (emitted w (evaluatePod w pod)) = [] ∧
    deleteCalls (emitted w (evaluatePod w pod)) = [] ∧
    (evaluatePod w pod).goroutines = w.goroutines := by
  have hev : evaluatePod w pod = w := by
    by_cases hs : pod.UID ∈ w.seenPods
    · exact evaluatePod_seen w pod hs
    · rw [evaluatePod_unseen w pod hs, evaluateBody_other w pod hphase hreason]
      exact evaluateContainers_none w pod _ hcs
  rw [hev, emitted_self]
  exact ⟨rfl, rfl, id, rfl, rfl, rfl, rfl, rfl⟩

/-- C3 at `podThreeRestarts`, whose only crash-looping container has restarted
3 times. -/
theorem evaluatePod_healthy_witness :
    evaluatePod World.init podThreeRestarts = World.init :=
  (evaluatePod_healthy World.init podThreeRestarts (by decide) (by decide)
    (by
      intro c hc
      have hc2 : c = waitingStatus "CrashLoopBackOff" 3 := by
        simpa [podThreeRestarts, mkPod] using hc
      rw [hc2]
      rintro ⟨wt, _, _, h3⟩
      exact absurd h3 (by decide))).1

/-! ## More facts about `evaluatePod` and `deletePod` -/

theorem evaluatePod_offending (w : World) (pod : Pod) (hseen : pod.UID ∉ w.seenPods)
    (hoff : Offending pod) :
    ∃ n, evaluatePod w pod = remediate w pod n ∧ n.pod = pod ∧
      (n.eventType = "FailedOrEvicted" ∨ n.eventType = "CrashLoopBackOff") := by
  rw [evaluatePod_unseen w pod hseen]
  by_cases hterm : pod.Status.Phase = PodFailed ∨ pod.Status.Reason = "Evicted"
  · exact ⟨_, evaluateBody_terminal w pod hterm, rfl, Or.inl rfl⟩
  · have h1 : pod.Status.Phase ≠ PodFailed := fun h => hterm (Or.inl h)
    have h2 : pod.Status.Reason ≠ "Evicted" := fun h => hterm (Or.inr h)
    have hex : ∃ cs ∈ pod.Status.ContainerStatuses, CrashLoopEntry cs := by
      rcases hoff with h | h | h
      · exact absurd h h1
      · exact absurd h h2
      · exact h
    obtain ⟨pre, cs, rest, hl, hpre, hcs⟩ := exists_first_crashLoop _ hex
    refine ⟨⟨"CrashLoopBackOff", pod, cs.RestartCount⟩, ?_, rfl, Or.inr rfl⟩
    rw [evaluateBody_other w pod h1 h2, hl]
    exact evaluateContainers_first w pod pre cs rest hpre hcs

/-- Whatever the pod, `evaluatePod` either changes nothing or remediates a pod
that was not in the seen-set. -/
theorem evaluatePod_cases (w : World) (pod : Pod) :
    evaluatePod w pod = w ∨
      (pod.UID ∉ w.seenPods ∧ ∃ n, evaluatePod w pod = remediate w pod n) := by
  by_cases hs : pod.UID ∈ w.seenPods
  · exact Or.inl (evaluatePod_seen w pod hs)
  · by_cases hoff : Offending pod
    · obtain ⟨n, hn, _⟩ := evaluatePod_offending w pod hs hoff
      exact Or.inr ⟨hs, n, hn⟩
    · left
      have h1 : pod.Status.Phase ≠ PodFailed := fun h => hoff (Or.inl h)
      have h2 : pod.Status.Reason ≠ "Evicted" := fun h => hoff (Or.inr (Or.inl h))
      rw [evaluatePod_unseen w pod hs, evaluateBody_other w pod h1 h2]
      exact evaluateContainers_none w pod _
        (fun cs hcs hent => hoff (Or.inr (Or.inr ⟨cs, hcs, hent⟩)))

theorem foldl_evaluatePod_seen (w : World) (uid : UID) (events : List Pod)
    (hseen : uid ∈ w.seenPods) (hsame : ∀ q ∈ events, q.UID = uid) :
    events.foldl evaluatePod w = w := by
  induction events with
  | nil => rfl
  | cons q rest ih =>
    have hq : q.UID ∈ w.seenPods := by
      rw [hsame q (List.mem_cons_self _ _)]
      exact hseen
    rw [List.foldl_cons, evaluatePod_seen w q hq]
    exact ih (fun x hx => hsame x (List.mem_cons_of_mem _ hx))

theorem deletePod_trace (w : World) (pod : Pod) (err : Option String) :
    (deletePod w pod err).trace
      = w.trace ++ [Effect.sleep 20,
          Effect.apiDelete ⟨pod.Namespace, pod.Name, DeleteOptions.empty⟩,
          Effect.postMessage ⟨outcomeKind err, pod, 0⟩, Effect.delete pod.UID] := by
  cases err <;> simp [deletePod, seenPodsDelete, PostMessage, Delete, Sleep, outcomeKind]

theorem deletePod_seenPods (w : World) (pod : Pod) (err : Option String) :
    (deletePod w pod err).seenPods = w.seenPods.filter (fun u => decide (u ≠ pod.UID)) := by
  cases err <;> simp [deletePod, seenPodsDelete, PostMessage, Delete, Sleep]

theorem deletePod_goroutines (w : World) (pod : Pod) (err : Option String) :
    (deletePod w pod err).goroutines = w.goroutines := by
  cases err <;> simp [deletePod, seenPodsDelete, PostMessage, Delete, Sleep]

theorem completeDelete_trace (w : World) (pod : Pod) (err : Option String) :
    (completeDelete w pod err).trace = (deletePod w pod err).trace := rfl

theorem completeDelete_seenPods (w : World) (pod : Pod) (err : Option String) :
    (completeDelete w pod err).seenPods = (deletePod w pod err).seenPods := rfl

theorem outcomeKind_isOutcome (err : Option String) (pod : Pod) (k : Int) :
    isOutcome ⟨outcomeKind err, pod, k⟩ = true := by
  cases err <;> simp [isOutcome, outcomeKind]

/-! ## Deduplication, deletion and release -/

/-- C4: when a pod's UID is already in the seen-set, `evaluatePod` on it
changes nothing, whatever the pod's phase, reason and container statuses: the
seen-set is the same, nothing is sent and nothing is started.  So any number
of events for that UID arriving while its remediation is active are all
dropped, and from then until the running `deletePod` has returned there is
exactly one delete call and exactly one outcome message. -/
theorem evaluatePod_seen_is_noop (w : World) (pod : Pod) (hseen : pod.UID ∈ w.seenPods) :
    evaluatePod w pod = w ∧
    (evaluatePod w pod).seenPods = w.seenPods ∧
    posts (emitted w (evaluatePod w pod)) = [] ∧
    spawns (emitted w (evaluatePod w pod)) = [] ∧
    (evaluatePod w pod).goroutines = w.goroutines ∧
    (∀ events : List Pod, (∀ q ∈ events, q.UID = pod.UID) →
      events.foldl evaluatePod w = w) ∧
    (∀ (events : List Pod) (running : Pod) (err : Option String),
      (∀ q ∈ events, q.UID = pod.UID) → running ∈ w.goroutines → running.UID = pod.UID →
      deleteCalls (emitted w (completeDelete (events.foldl evaluatePod w) running err))
        = [⟨running.Namespace, running.Name, DeleteOptions.empty⟩] ∧
      (posts (emitted w (completeDelete (events.foldl evaluatePod w) running err))).filter
          isOutcome = [⟨outcomeKind err, running, 0⟩] ∧
      spawns (emitted w (completeDelete (events.foldl evaluatePod w) running err)) = []) := by
  have hev := evaluatePod_seen w pod hseen
  rw [hev, emitted_self]
  refine ⟨rfl, rfl, rfl, rfl, rfl, ?_, ?_⟩
  · intro events hsame
    exact foldl_evaluatePod_seen w pod.UID events hseen hsame
  · intro events running err hsame _ _
    rw [foldl_evaluatePod_seen w pod.UID events hseen hsame]
    have ht : (completeDelete w running err).trace = w.trace ++ _ := deletePod_trace w running err
    rw [emitted_of_trace ht]
    refine ⟨by simp [deleteCalls], ?_, by simp [spawns]⟩
    simp [posts, List.filter, outcomeKind_isOutcome]

/-- C4 with `podFailedCrash` detected once and two more events for it. -/
theorem evaluatePod_seen_is_noop_witness :
    [podFailedCrash, podFailedCrash].foldl evaluatePod
        (evaluatePod World.init podFailedCrash)
      = evaluatePod World.init podFailedCrash ∧
    deleteCalls (emitted (evaluatePod World.init podFailedCrash)
        (completeDelete ([podFailedCrash, podFailedCrash].foldl evaluatePod
          (evaluatePod World.init podFailedCrash)) podFailedCrash none))
      = [⟨"default", "web", DeleteOptions.empty⟩] :=
  ⟨(evaluatePod_seen_is_noop (evaluatePod World.init podFailedCrash) podFailedCrash
      (by decide)).2.2.2.2.2.1 [podFailedCrash, podFailedCrash] (by simp),
   ((evaluatePod_seen_is_noop (evaluatePod World.init podFailedCrash) podFailedCrash
      (by decide)).2.2.2.2.2.2 [podFailedCrash, podFailedCrash] podFailedCrash none
      (by simp) (by decide) rfl).1⟩

/-- C5: whether the delete call succeeds or fails, the last effect of
`deletePod` is the removal of the pod's UID from the seen-set, right after the
outcome message; afterwards that UID is not in the seen-set and every other
UID is in it exactly when it was before. -/
theorem deletePod_releases_uid (w : World) (pod : Pod) (err : Option String) :
    (∃ before n, emitted w (deletePod w pod err)
        = before ++ [Effect.postMessage n, Effect.delete pod.UID] ∧ isOutcome n = true) ∧
    (emitted w (deletePod w pod err)).getLast? = some (Effect.delete pod.UID) ∧
    pod.UID ∉ (deletePod w pod err).seenPods ∧
    (∀ u, u ≠ pod.UID → (u ∈ (deletePod w pod err).seenPods ↔ u ∈ w.seenPods)) ∧
    (completeDelete w pod err).seenPods = (deletePod w pod err).seenPods := by
  rw [emitted_of_trace (deletePod_trace w pod err), deletePod_seenPods]
  refine ⟨⟨[Effect.sleep 20,
      Effect.apiDelete ⟨pod.Namespace, pod.Name, DeleteOptions.empty⟩],
      ⟨outcomeKind err, pod, 0⟩, by simp, outcomeKind_isOutcome _ _ _⟩, by simp, by simp, ?_,
    by rw [completeDelete_seenPods, deletePod_seenPods]⟩
  intro u hu
  simp [hu]

/-- C6: `deletePod` sleeps for the grace period, then issues one delete call
for the pod's namespace and name, then sends one message, and does nothing
else but release the UID: no second call, no new goroutine.  The message is
`Deleted` exactly when the call returned no error and `FailedToDelete` exactly
when it returned one. -/
theorem deletePod_one_call_one_outcome (w : World) (pod : Pod) (err : Option String) :
    emitted w (deletePod w pod err)
      = [Effect.sleep 20,
         Effect.apiDelete ⟨pod.Namespace, pod.Name, DeleteOptions.empty⟩,
         Effect.postMessage ⟨outcomeKind err, pod, 0⟩, Effect.delete pod.UID] ∧
    deleteCalls (emitted w (deletePod w pod err))
      = [⟨pod.Namespace, pod.Name, DeleteOptions.empty⟩] ∧
    spawns (emitted w (deletePod w pod err)) = [] ∧
    (deletePod w pod err).goroutines = w.goroutines ∧
    (∃ n, posts (emitted w (deletePod w pod err)) = [n] ∧ n.pod = pod ∧
      (n.eventType = "Deleted" ∨ n.eventType = "FailedToDelete") ∧
      (n.eventType = "Deleted" ↔ err = none) ∧
      (n.eventType = "FailedToDelete" ↔ err ≠ none)) := by
  rw [emitted_of_trace (deletePod_trace w pod err)]
  refine ⟨rfl, by simp [deleteCalls], by simp [spawns], deletePod_goroutines w pod err,
    ⟨outcomeKind err, pod, 0⟩, by simp [posts], rfl, ?_, ?_, ?_⟩
  · cases err <;> simp [outcomeKind]
  · cases err <;> simp [outcomeKind]
  · cases err <;> simp [outcomeKind]

/-- C8: `handleUpdate` changes nothing for any pair of old and new objects,
also when the new object is an offending pod: the seen-set is the same, nothing
is sent and nothing is started.  `handleAdd` on a pod is `evaluatePod` on that
pod, and on anything else it changes nothing. -/
theorem handleUpdate_no_remediation (w : World) (oldObj newObj : Obj) :
    handleUpdate w oldObj newObj = w ∧
    (handleUpdate w oldObj newObj).seenPods = w.seenPods ∧
    posts (emitted w (handleUpdate w oldObj newObj)) = [] ∧
    spawns (emitted w (handleUpdate w oldObj newObj)) = [] ∧
    deleteCalls (emitted w (handleUpdate w oldObj newObj)) = [] ∧
    (handleUpdate w oldObj newObj).goroutines = w.goroutines ∧
    (∀ p : Pod, handleAdd w (Obj.pod p) = evaluatePod w p) ∧
    handleAdd w Obj.other = w := by
  have h : handleUpdate w oldObj newObj = w := by
    cases newObj <;> rfl
  rw [h, emitted_self]
  exact ⟨rfl, rfl, rfl, rfl, rfl, rfl, fun _ => rfl, rfl⟩

theorem evaluatePod_mem_other (w : World) (pod : Pod) (u : UID) (hu : u ≠ pod.UID) :
    u ∈ (evaluatePod w pod).seenPods ↔ u ∈ w.seenPods := by
  rcases evaluatePod_cases w pod with h | ⟨_, n, h⟩
  · rw [h]
  · rw [h, remediate_seenPods]
    simp [hu]

/-- C10: the seen-set is keyed by UID and the delete call by namespace and
name.  For two pods with the same namespace and name and different UIDs,
`deletePod` issues the same delete request, with empty options and so no UID
precondition; and marking or remediating the one leaves the other's UID as it
was in the seen-set, so the other, when offending and unseen, is still
remediated. -/
theorem dedup_by_uid_delete_by_name (wp wq : World) (p q : Pod) (errP errQ : Option String)
    (hns : p.Namespace = q.Namespace) (hname : p.Name = q.Name) (huid : p.UID ≠ q.UID) :
    deleteCalls (emitted wp (deletePod wp p errP))
      = deleteCalls (emitted wq (deletePod wq q errQ)) ∧
    deleteCalls (emitted wp (deletePod wp p errP))
      = [⟨p.Namespace, p.Name, DeleteOptions.empty⟩] ∧
    DeleteOptions.empty.Preconditions = none ∧
    (q.UID ∈ (markAsSeen wq p.UID).seenPods ↔ q.UID ∈ wq.seenPods) ∧
    (q.UID ∈ (evaluatePod wq p).seenPods ↔ q.UID ∈ wq.seenPods) ∧
    (q.UID ∉ wq.seenPods → Offending q →
      q.UID ∈ (evaluatePod (evaluatePod wq p) q).seenPods ∧
      spawns (emitted (evaluatePod wq p) (evaluatePod (evaluatePod wq p) q)) = [q] ∧
      ∃ n, posts (emitted (evaluatePod wq p) (evaluatePod (evaluatePod wq p) q)) = [n] ∧
        n.pod = q) := by
  have hne : q.UID ≠ p.UID := fun h => huid h.symm
  rw [emitted_of_trace (deletePod_trace wp p errP), emitted_of_trace (deletePod_trace wq q errQ)]
  refine ⟨by simp [deleteCalls, hns, hname], by simp [deleteCalls], rfl, ?_,
    evaluatePod_mem_other wq p q.UID hne, ?_⟩
  · simp [markAsSeen, hne]
  · intro hq hoff
    have hq2 : q.UID ∉ (evaluatePod wq p).seenPods :=
      fun h => hq ((evaluatePod_mem_other wq p q.UID hne).1 h)
    obtain ⟨n, hn, hpod, _⟩ := evaluatePod_offending (evaluatePod wq p) q hq2 hoff
    rw [hn, emitted_of_trace (remediate_trace _ _ _)]
    refine ⟨by simp [remediate_seenPods], by simp [spawns], n, by simp [posts], hpod⟩

/-- C10 at `podFailedCrash` and `podRecreated`, which share namespace and name. -/
theorem dedup_by_uid_delete_by_name_witness :
    deleteCalls (emitted World.init (deletePod World.init podFailedCrash none))
      = deleteCalls (emitted World.init (deletePod World.init podRecreated none)) ∧
    ("uid-9" ∈ (evaluatePod World.init podFailedCrash).seenPods
      ↔ "uid-9" ∈ World.init.seenPods) :=
  ⟨(dedup_by_uid_delete_by_name World.init World.init podFailedCrash podRecreated none none
      rfl rfl (by decide)).1,
   (dedup_by_uid_delete_by_name World.init World.init podFailedCrash podRecreated none none
      rfl rfl (by decide)).2.2.2.2.1⟩

/-! ## The seen-set invariant -/

/-- The invariant: the seen-set holds exactly the UIDs of the running
`deletePod` goroutines, and no two of these have the same UID. -/
theorem invariant_step (w w1 : World) (hstep : Step w w1)
    (hiff : ∀ uid, uid ∈ w.seenPods ↔ ∃ p ∈ w.goroutines, p.UID = uid)
    (hnd : (w.goroutines.map Pod.UID).Nodup) :
    (∀ uid, uid ∈ w1.seenPods ↔ ∃ p ∈ w1.goroutines, p.UID = uid) ∧
    (w1.goroutines.map Pod.UID).Nodup := by
  cases hstep with
  | evaluate pod =>
    rcases evaluatePod_cases w pod with h | ⟨hnew, n, h⟩
    · rw [h]
      exact ⟨hiff, hnd⟩
    · rw [h, remediate_seenPods, remediate_goroutines]
      constructor
      · intro uid
        rw [List.mem_insert_iff, hiff uid]
        constructor
        · rintro (heq | ⟨p, hp, hpu⟩)
          · exact ⟨pod, by simp, heq.symm⟩
          · exact ⟨p, by simp [hp], hpu⟩
        · rintro ⟨p, hp, hpu⟩
          rcases List.mem_append.1 hp with hin | hin
          · exact Or.inr ⟨p, hin, hpu⟩
          · left
            rw [List.mem_singleton.1 hin] at hpu
            exact hpu.symm
      · rw [List.map_append, List.nodup_append]
        refine ⟨hnd, by simp, ?_⟩
        intro u hu hu2
        have hu3 : u = pod.UID := by simpa using hu2
        obtain ⟨p, hp, hpu⟩ := List.mem_map.1 hu
        exact hnew ((hiff pod.UID).2 ⟨p, hp, hpu.trans hu3⟩)
  | complete pod err hmem =>
    have hnd2 : w.goroutines.Nodup := List.Nodup.of_map _ hnd
    have hs : (completeDelete w pod err).seenPods
        = w.seenPods.filter (fun u => decide (u ≠ pod.UID)) := by
      rw [completeDelete_seenPods, deletePod_seenPods]
    have hg : (completeDelete w pod err).goroutines = w.goroutines.erase pod := rfl
    rw [hs, hg]
    constructor
    · intro uid
      constructor
      · intro h
        have h2 : uid ∈ w.seenPods ∧ uid ≠ pod.UID := by simpa using h
        obtain ⟨p, hp, hpu⟩ := (hiff uid).1 h2.1
        have hpne : p ≠ pod := by
          intro heq
          rw [heq] at hpu
          exact h2.2 hpu.symm
        exact ⟨p, (List.mem_erase_of_ne hpne).2 hp, hpu⟩
      · rintro ⟨p, hp, hpu⟩
        have hp2 := (List.Nodup.mem_erase_iff hnd2).1 hp
        have hne : uid ≠ pod.UID := by
          intro heq
          exact hp2.1 (List.inj_on_of_nodup_map hnd hp2.2 hmem (hpu.trans heq))
        have hin : uid ∈ w.seenPods := (hiff uid).2 ⟨p, hp2.2, hpu⟩
        simp [hin, hne]
    · exact List.Nodup.sublist (List.Sublist.map _ (List.erase_sublist pod w.goroutines)) hnd

/-- C7: in every state reachable from the empty seen-set with nothing running,
by steps that run `evaluatePod` on any pod or let a started `deletePod` run to
its end, a UID is in the seen-set exactly when a `deletePod` goroutine for a
pod with that UID has been started and has not returned, and no two such
goroutines are for the same UID. -/
theorem seen_set_invariant (w : World) (h : Reachable w) :
    (∀ uid, uid ∈ w.seenPods ↔ ∃ p ∈ w.goroutines, p.UID = uid) ∧
    (w.goroutines.map Pod.UID).Nodup := by
  induction h with
  | start => simp [World.init]
  | next _ hstep ih => exact invariant_step _ _ hstep ih.1 ih.2

/-- C7 at the state reached by detecting `podFailedCrash` and `podCrashLoop`
and letting the first deletion fail. -/
theorem seen_set_invariant_witness :
    (∀ uid, uid ∈ (completeDelete (evaluatePod (evaluatePod World.init podFailedCrash)
          podCrashLoop) podFailedCrash (some "timeout")).seenPods ↔
      ∃ p ∈ (completeDelete (evaluatePod (evaluatePod World.init podFailedCrash)
          podCrashLoop) podFailedCrash (some "timeout")).goroutines, p.UID = uid) ∧
    (completeDelete (evaluatePod (evaluatePod World.init podFailedCrash)
          podCrashLoop) podFailedCrash (some "timeout")).seenPods = ["uid-2"] :=
  ⟨(seen_set_invariant _
      (Reachable.next
        (Reachable.next (Reachable.next Reachable.start (Step.evaluate _ podFailedCrash))
          (Step.evaluate _ podCrashLoop))
        (Step.complete _ podFailedCrash (some "timeout") (by decide)))).1,
   by decide⟩

/-! ## Concurrent evaluations -/

theorem spawns_append (a b : List Effect) : spawns (a ++ b) = spawns a ++ spawns b := by
  induction a with
  | nil => rfl
  | cons e a ih => cases e <;> simp [spawns, ih]

theorem posts_append (a b : List Effect) : posts (a ++ b) = posts a ++ posts b := by
  induction a with
  | nil => rfl
  | cons e a ih => cases e <;> simp [posts, ih]

theorem detections_append (a b : List Effect) :
    detections (a ++ b) = detections a ++ detections b := by
  simp [detections, posts_append]

/-- An offending pod that reaches lines 137-175 is remediated, whatever the
seen-set holds by then; the message is a detection message. -/
theorem evaluateBody_offending (w : World) (pod : Pod) (hoff : Offending pod) :
    ∃ n, evaluateBody w pod = remediate w pod n ∧ n.pod = pod ∧ isOutcome n = false := by
  by_cases hterm : pod.Status.Phase = PodFailed ∨ pod.Status.Reason = "Evicted"
  · exact ⟨_, evaluateBody_terminal w pod hterm, rfl, by simp [isOutcome]⟩
  · have h1 : pod.Status.Phase ≠ PodFailed := fun h => hterm (Or.inl h)
    have h2 : pod.Status.Reason ≠ "Evicted" := fun h => hterm (Or.inr h)
    have hex : ∃ cs ∈ pod.Status.ContainerStatuses, CrashLoopEntry cs := by
      rcases hoff with h | h | h
      · exact absurd h h1
      · exact absurd h h2
      · exact h
    obtain ⟨pre, cs, rest, hl, hpre, hcs⟩ := exists_first_crashLoop _ hex
    refine ⟨⟨"CrashLoopBackOff", pod, cs.RestartCount⟩, ?_, rfl, by simp [isOutcome]⟩
    rw [evaluateBody_other w pod h1 h2, hl]
    exact evaluateContainers_first w pod pre cs rest hpre hcs

/-- The two moves of one call, taken back to back, are `evaluatePod`. -/
theorem threadStep_twice (w : World) (p : Pod) :
    threadStep (threadStep w ⟨p, EvalPc.entry⟩).1 (threadStep w ⟨p, EvalPc.entry⟩).2
      = (evaluatePod w p, ⟨p, EvalPc.done⟩) := by
  by_cases hs : p.UID ∈ w.seenPods
  · simp [threadStep, evaluatePod, isSeenBefore, hs]
  · simp [threadStep, evaluatePod, isSeenBefore, hs]

theorem getElem?_split {α : Type} (l : List α) :
    ∀ (i : Nat) (x : α), l[i]? = some x → ∃ pre rest, l = pre ++ x :: rest ∧ pre.length = i := by
  induction l with
  | nil =>
    intro i x h
    simp at h
  | cons a l ih =>
    intro i x h
    cases i with
    | zero =>
      have hx : a = x := by simpa using h
      exact ⟨[], l, by simp [hx], rfl⟩
    | succ k =>
      have h2 : l[k]? = some x := by simpa using h
      obtain ⟨pre, rest, hl, hlen⟩ := ih k x h2
      exact ⟨a :: pre, rest, by simp [hl], by simp [hlen]⟩

theorem schedStep_eval_at (w : World) (pre : List Thread) (t : Thread) (rest : List Thread) :
    schedStep ⟨w, pre ++ t :: rest⟩ (Move.eval pre.length)
      = ⟨(threadStep w t).1, pre ++ (threadStep w t).2 :: rest⟩ := by
  have hget : (pre ++ t :: rest)[pre.length]? = some t := by
    rw [List.getElem?_append_right (Nat.le_refl _)]
    simp
  have hset : ∀ x : Thread, (pre ++ t :: rest).set pre.length x = pre ++ x :: rest := by
    intro x
    simp
  simp only [schedStep, hget, hset]

/-- What one move of the scheduler can be: nothing, a check that finds the UID
unmarked, a check that finds it marked, the rest of the body, or the end of a
`deletePod`. -/
theorem schedStep_cases (c : Config) (m : Move) :
    schedStep c m = c ∨
    (∃ pre p rest, c.threads = pre ++ ⟨p, EvalPc.entry⟩ :: rest ∧ p.UID ∉ c.world.seenPods ∧
      schedStep c m = ⟨c.world, pre ++ ⟨p, EvalPc.checked⟩ :: rest⟩) ∨
    (∃ pre p rest, c.threads = pre ++ ⟨p, EvalPc.entry⟩ :: rest ∧ p.UID ∈ c.world.seenPods ∧
      schedStep c m = ⟨c.world, pre ++ ⟨p, EvalPc.done⟩ :: rest⟩) ∨
    (∃ pre p rest, c.threads = pre ++ ⟨p, EvalPc.checked⟩ :: rest ∧
      schedStep c m = ⟨evaluateBody c.world p, pre ++ ⟨p, EvalPc.done⟩ :: rest⟩) ∨
    (∃ pod err, m = Move.finish pod err ∧
      schedStep c m = ⟨completeDelete c.world pod err, c.threads⟩) := by
  obtain ⟨w, ts⟩ := c
  cases m with
  | eval i =>
    cases hget : ts[i]? with
    | none =>
      left
      simp [schedStep, hget]
    | some t =>
      obtain ⟨pre, rest, hts, hlen⟩ := getElem?_split ts i t hget
      subst hlen
      subst hts
      obtain ⟨p, pc⟩ := t
      rw [schedStep_eval_at]
      cases pc with
      | entry =>
        by_cases hs : p.UID ∈ w.seenPods
        · right; right; left
          exact ⟨pre, p, rest, rfl, hs, by simp [threadStep, isSeenBefore, hs]⟩
        · right; left
          exact ⟨pre, p, rest, rfl, hs, by simp [threadStep, isSeenBefore, hs]⟩
      | checked =>
        right; right; right; left
        exact ⟨pre, p, rest, rfl, by simp [threadStep]⟩
      | done =>
        left
        simp [threadStep]
  | finish pod err =>
    by_cases hmem : pod ∈ w.goroutines
    · right; right; right; right
      exact ⟨pod, err, rfl, by simp [schedStep, hmem]⟩
    · left
      simp [schedStep, hmem]

theorem checkedCount_split (pre rest : List Thread) (t : Thread) :
    checkedCount (pre ++ t :: rest)
      = checkedCount pre + (if t.pc = EvalPc.checked then 1 else 0) + checkedCount rest := by
  by_cases h : t.pc = EvalPc.checked
  · simp [checkedCount, List.filter_append, List.filter_cons, h]
    omega
  · simp [checkedCount, List.filter_append, List.filter_cons, h]

theorem completeDelete_spawns (w : World) (pod : Pod) (err : Option String) :
    spawns (completeDelete w pod err).trace = spawns w.trace := by
  rw [completeDelete_trace, deletePod_trace, spawns_append]
  simp [spawns]

/-- One move never lowers the number of started goroutines, nor that number
plus the number of calls between check and mark; the pods of the calls stay. -/
theorem step_measure (c : Config) (m : Move)
    (hoff : ∀ p ∈ c.threads.map Thread.pod, Offending p) :
    (schedStep c m).threads.map Thread.pod = c.threads.map Thread.pod ∧
    (spawns c.world.trace).length ≤ (spawns (schedStep c m).world.trace).length ∧
    (spawns c.world.trace).length + checkedCount c.threads
      ≤ (spawns (schedStep c m).world.trace).length
          + checkedCount (schedStep c m).threads := by
  rcases schedStep_cases c m with h | ⟨pre, p, rest, hts, _, h⟩ | ⟨pre, p, rest, hts, _, h⟩ |
    ⟨pre, p, rest, hts, h⟩ | ⟨pod, err, _, h⟩
  · rw [h]
    exact ⟨rfl, Nat.le_refl _, Nat.le_refl _⟩
  · rw [h, hts]
    refine ⟨by simp, Nat.le_refl _, ?_⟩
    simp only [checkedCount_split]
    simp
  · rw [h, hts]
    refine ⟨by simp, Nat.le_refl _, ?_⟩
    simp only [checkedCount_split]
    simp
  · have hp : Offending p := hoff p (by simp [hts])
    obtain ⟨n, hn, _, _⟩ := evaluateBody_offending c.world p hp
    rw [h, hts]
    simp only [hn, remediate_trace, spawns_append, checkedCount_split]
    refine ⟨by simp, by simp, ?_⟩
    simp [spawns]
    omega
  · rw [h]
    exact ⟨rfl, by simp [completeDelete_spawns], by simp [completeDelete_spawns]⟩

theorem run_measure (sched : List Move) :
    ∀ c : Config, (∀ p ∈ c.threads.map Thread.pod, Offending p) →
      (runSchedule c sched).threads.map Thread.pod = c.threads.map Thread.pod ∧
      (spawns c.world.trace).length ≤ (spawns (runSchedule c sched).world.trace).length ∧
      (spawns c.world.trace).length + checkedCount c.threads
        ≤ (spawns (runSchedule c sched).world.trace).length
            + checkedCount (runSchedule c sched).threads := by
  induction sched with
  | nil =>
    intro c _
    exact ⟨rfl, Nat.le_refl _, Nat.le_refl _⟩
  | cons m rest ih =>
    intro c hoff
    obtain ⟨h1, h2, h3⟩ := step_measure c m hoff
    have hoff2 : ∀ p ∈ (schedStep c m).threads.map Thread.pod, Offending p := by
      rw [h1]
      exact hoff
    obtain ⟨k1, k2, k3⟩ := ih (schedStep c m) hoff2
    have hrun : runSchedule c (m :: rest) = runSchedule (schedStep c m) rest := rfl
    rw [hrun]
    exact ⟨k1.trans h1, Nat.le_trans h2 k2, Nat.le_trans h3 k3⟩

/-- If the whole run ends with at most one goroutine started beyond `s0`, then
at no point were two calls between check and mark. -/
theorem exclusive_of_bound (sched : List Move) :
    ∀ (c : Config) (s0 : Nat), (∀ p ∈ c.threads.map Thread.pod, Offending p) →
      s0 ≤ (spawns c.world.trace).length →
      (spawns (runSchedule c sched).world.trace).length
          + checkedCount (runSchedule c sched).threads ≤ s0 + 1 →
      exclusive c sched = true := by
  induction sched with
  | nil =>
    intro c s0 _ hs hb
    have hrun : runSchedule c [] = c := rfl
    rw [hrun] at hb
    simp only [exclusive, decide_eq_true_eq]
    omega
  | cons m rest ih =>
    intro c s0 hoff hs hb
    obtain ⟨_, _, g3⟩ := run_measure (m :: rest) c hoff
    obtain ⟨h1, h2, _⟩ := step_measure c m hoff
    have hoff2 : ∀ p ∈ (schedStep c m).threads.map Thread.pod, Offending p := by
      rw [h1]
      exact hoff
    have hrun : runSchedule c (m :: rest) = runSchedule (schedStep c m) rest := rfl
    have hrest := ih (schedStep c m) s0 hoff2 (Nat.le_trans hs h2) (by rw [← hrun]; exact hb)
    simp only [exclusive, Bool.and_eq_true, decide_eq_true_eq]
    exact ⟨by omega, hrest⟩

theorem allDone_checkedCount (ts : List Thread) (h : allDone ts = true) :
    checkedCount ts = 0 := by
  induction ts with
  | nil => rfl
  | cons t ts ih =>
    have h2 : t.pc = EvalPc.done ∧ allDone ts = true := by
      simpa [allDone] using h
    have h3 := ih h2.2
    have h4 : checkedCount (t :: ts) = checkedCount ([] ++ t :: ts) := rfl
    rw [h4, checkedCount_split, h3, h2.1]
    simp [checkedCount]

theorem deletePod_effects_quiet (pod : Pod) (err : Option String) :
    spawns [Effect.sleep 20,
        Effect.apiDelete ⟨pod.Namespace, pod.Name, DeleteOptions.empty⟩,
        Effect.postMessage ⟨outcomeKind err, pod, 0⟩, Effect.delete pod.UID] = [] ∧
    detections [Effect.sleep 20,
        Effect.apiDelete ⟨pod.Namespace, pod.Name, DeleteOptions.empty⟩,
        Effect.postMessage ⟨outcomeKind err, pod, 0⟩, Effect.delete pod.UID] = [] := by
  refine ⟨by simp [spawns], ?_⟩
  simp [detections, posts, outcomeKind_isOutcome]

/-- One move keeps `Phase`, when at most one call is between check and mark
and the move is not the end of a `deletePod` for the UID. -/
theorem phase_step (w : World) (u : UID) (c : Config) (m : Move)
    (hpods : ∀ p ∈ c.threads.map Thread.pod, p.UID = u ∧ Offending p)
    (hph : Phase w u c) (hex : checkedCount c.threads ≤ 1)
    (hrel : ∀ pod err, m = Move.finish pod err → pod.UID ≠ u) :
    Phase w u (schedStep c m) := by
  obtain ⟨es, htr, hAB⟩ := hph
  rcases schedStep_cases c m with h | ⟨pre, p, rest, hts, hs, h⟩ | ⟨pre, p, rest, hts, hs, h⟩ |
    ⟨pre, p, rest, hts, h⟩ | ⟨pod, err, hm, h⟩
  · rw [h]
    exact ⟨es, htr, hAB⟩
  · have hpu : p.UID = u := (hpods p (by simp [hts])).1
    rw [h]
    rcases hAB with ⟨hu, hnd, hsp, hdet⟩ | ⟨hu, _⟩
    · refine ⟨es, htr, Or.inl ⟨hu, ?_, hsp, hdet⟩⟩
      intro t ht
      have ht2 : t ∈ pre ∨ t = ⟨p, EvalPc.checked⟩ ∨ t ∈ rest := by simpa using ht
      rcases ht2 with ht3 | ht3 | ht3
      · exact hnd t (by simp [hts, ht3])
      · rw [ht3]
        simp
      · exact hnd t (by simp [hts, ht3])
    · exact absurd (hpu ▸ hu) hs
  · have hpu : p.UID = u := (hpods p (by simp [hts])).1
    rw [h]
    rcases hAB with ⟨hu, _⟩ | ⟨hu, hcc, p0, n, hp0, hsp, hdet, hn⟩
    · exact absurd (hpu ▸ hs) hu
    · refine ⟨es, htr, Or.inr ⟨hu, ?_, p0, n, ?_, hsp, hdet, hn⟩⟩
      · rw [hts, checkedCount_split] at hcc
        rw [checkedCount_split]
        simp at hcc ⊢
        exact hcc
      · have hp1 : p0 ∈ (pre ++ ⟨p, EvalPc.entry⟩ :: rest).map Thread.pod := hts ▸ hp0
        simpa using hp1
  · have hpo := hpods p (by simp [hts])
    obtain ⟨n, hn, hnp, hno⟩ := evaluateBody_offending c.world p hpo.2
    rw [h]
    rcases hAB with ⟨_, _, hsp, hdet⟩ | ⟨_, hcc, _⟩
    · refine ⟨es ++ [Effect.store p.UID, Effect.postMessage n, Effect.go p], ?_, Or.inr ⟨?_, ?_,
        p, n, by simp, ?_, ?_, hnp⟩⟩
      · show (evaluateBody c.world p).trace = _
        rw [hn, remediate_trace, htr, List.append_assoc]
      · show u ∈ (evaluateBody c.world p).seenPods
        rw [hn, remediate_seenPods, hpo.1]
        simp
      · rw [hts, checkedCount_split] at hex
        rw [checkedCount_split]
        simp at hex ⊢
        omega
      · rw [spawns_append, hsp]
        simp [spawns]
      · rw [detections_append, hdet]
        simp [detections, posts, hno]
    · rw [hts, checkedCount_split] at hcc
      simp at hcc
  · have hne : pod.UID ≠ u := hrel pod err hm
    have hne2 : u ≠ pod.UID := fun hh => hne hh.symm
    obtain ⟨hq1, hq2⟩ := deletePod_effects_quiet pod err
    have htr2 : (completeDelete c.world pod err).trace
        = w.trace ++ (es ++ [Effect.sleep 20,
            Effect.apiDelete ⟨pod.Namespace, pod.Name, DeleteOptions.empty⟩,
            Effect.postMessage ⟨outcomeKind err, pod, 0⟩, Effect.delete pod.UID]) := by
      rw [completeDelete_trace, deletePod_trace, htr, List.append_assoc]
    have hseen : u ∈ (completeDelete c.world pod err).seenPods ↔ u ∈ c.world.seenPods := by
      rw [completeDelete_seenPods, deletePod_seenPods]
      simp [hne2]
    rw [h]
    rcases hAB with ⟨hu, hnd, hsp, hdet⟩ | ⟨hu, hcc, p0, n, hp0, hsp, hdet, hn⟩
    · refine ⟨_, htr2, Or.inl ⟨fun hh => hu (hseen.1 hh), hnd, ?_, ?_⟩⟩
      · rw [spawns_append, hsp, hq1]
        rfl
      · rw [detections_append, hdet, hq2]
        rfl
    · refine ⟨_, htr2, Or.inr ⟨hseen.2 hu, hcc, p0, n, hp0, ?_, ?_, hn⟩⟩
      · rw [spawns_append, hsp, hq1]
        rfl
      · rw [detections_append, hdet, hq2]
        rfl

theorem phase_run (w : World) (u : UID) (sched : List Move) :
    ∀ c : Config, (∀ p ∈ c.threads.map Thread.pod, p.UID = u ∧ Offending p) →
      Phase w u c → exclusive c sched = true →
      (∀ pod err, Move.finish pod err ∈ sched → pod.UID ≠ u) →
      Phase w u (runSchedule c sched) := by
  induction sched with
  | nil =>
    intro c _ hph _ _
    exact hph
  | cons m rest ih =>
    intro c hpods hph hex hrel
    have hex2 : checkedCount c.threads ≤ 1 ∧ exclusive (schedStep c m) rest = true := by
      simpa [exclusive] using hex
    have hoff : ∀ p ∈ c.threads.map Thread.pod, Offending p := fun p hp => (hpods p hp).2
    obtain ⟨h1, _, _⟩ := step_measure c m hoff
    have hpods2 : ∀ p ∈ (schedStep c m).threads.map Thread.pod, p.UID = u ∧ Offending p := by
      rw [h1]
      exact hpods
    have hph2 := phase_step w u c m hpods hph hex2.1
      (fun pod err hm => hrel pod err (by simp [hm]))
    exact ih (schedStep c m) hpods2 hph2 hex2.2
      (fun pod err hm => hrel pod err (List.mem_cons_of_mem _ hm))

theorem step_trace (c : Config) (m : Move)
    (hoff : ∀ p ∈ c.threads.map Thread.pod, Offending p) :
    ∃ es, (schedStep c m).world.trace = c.world.trace ++ es := by
  rcases schedStep_cases c m with h | ⟨pre, p, rest, hts, _, h⟩ | ⟨pre, p, rest, hts, _, h⟩ |
    ⟨pre, p, rest, hts, h⟩ | ⟨pod, err, _, h⟩
  · exact ⟨[], by rw [h]; simp⟩
  · exact ⟨[], by rw [h]; simp⟩
  · exact ⟨[], by rw [h]; simp⟩
  · obtain ⟨n, hn, _, _⟩ := evaluateBody_offending c.world p (hoff p (by simp [hts]))
    refine ⟨[Effect.store p.UID, Effect.postMessage n, Effect.go p], ?_⟩
    rw [h]
    show (evaluateBody c.world p).trace = _
    rw [hn, remediate_trace]
  · refine ⟨[Effect.sleep 20,
      Effect.apiDelete ⟨pod.Namespace, pod.Name, DeleteOptions.empty⟩,
      Effect.postMessage ⟨outcomeKind err, pod, 0⟩, Effect.delete pod.UID], ?_⟩
    rw [h]
    show (completeDelete c.world pod err).trace = _
    rw [completeDelete_trace, deletePod_trace]

theorem run_trace (sched : List Move) :
    ∀ c : Config, (∀ p ∈ c.threads.map Thread.pod, Offending p) →
      ∃ es, (runSchedule c sched).world.trace = c.world.trace ++ es := by
  induction sched with
  | nil =>
    intro c _
    exact ⟨[], by simp [runSchedule]⟩
  | cons m rest ih =>
    intro c hoff
    obtain ⟨h1, _, _⟩ := step_measure c m hoff
    obtain ⟨es1, he1⟩ := step_trace c m hoff
    obtain ⟨es2, he2⟩ := ih (schedStep c m) (by rw [h1]; exact hoff)
    have hrun : runSchedule c (m :: rest) = runSchedule (schedStep c m) rest := rfl
    exact ⟨es1 ++ es2, by rw [hrun, he2, he1, List.append_assoc]⟩

theorem allDone_mem (ts : List Thread) (h : allDone ts = true) :
    ∀ t ∈ ts, t.pc = EvalPc.done := by
  intro t ht
  have h2 : ∀ x ∈ ts, x.pc = EvalPc.done := by simpa [allDone] using h
  exact h2 t ht

/-- C9, as it fails: two calls of `evaluatePod` on the failed pod
`podFailedCrash`, from the empty seen-set.  Both run the `Load` of line 133
before either runs its `Store`; both return having sent a message and started
a `deletePod`, so it is not the case that exactly one of them proceeds. -/
theorem check_then_mark_both_proceed :
    (runSchedule (startAll World.init [podFailedCrash, podFailedCrash])
        [Move.eval 0, Move.eval 1, Move.eval 0, Move.eval 1]).threads
      = [⟨podFailedCrash, EvalPc.done⟩, ⟨podFailedCrash, EvalPc.done⟩] ∧
    spawns (emitted World.init
        (runSchedule (startAll World.init [podFailedCrash, podFailedCrash])
          [Move.eval 0, Move.eval 1, Move.eval 0, Move.eval 1]).world)
      = [podFailedCrash, podFailedCrash] ∧
    posts (emitted World.init
        (runSchedule (startAll World.init [podFailedCrash, podFailedCrash])
          [Move.eval 0, Move.eval 1, Move.eval 0, Move.eval 1]).world)
      = [⟨"FailedOrEvicted", podFailedCrash, 0⟩, ⟨"FailedOrEvicted", podFailedCrash, 0⟩] ∧
    ¬ (spawns (emitted World.init
        (runSchedule (startAll World.init [podFailedCrash, podFailedCrash])
          [Move.eval 0, Move.eval 1, Move.eval 0, Move.eval 1]).world)).length = 1 := by
  decide

/-- When the `deletePod` started by the first call returns before the second
call begins, the UID has been released (line 204) and the second call proceeds
too, although the two calls never overlap. -/
theorem release_between_calls_both_proceed :
    exclusive (startAll World.init [podFailedCrash, podFailedCrash])
        [Move.eval 0, Move.eval 0, Move.finish podFailedCrash none,
         Move.eval 1, Move.eval 1] = true ∧
    spawns (emitted World.init
        (runSchedule (startAll World.init [podFailedCrash, podFailedCrash])
          [Move.eval 0, Move.eval 0, Move.finish podFailedCrash none,
           Move.eval 1, Move.eval 1]).world)
      = [podFailedCrash, podFailedCrash] := by
  decide

/-- C9, amended: the check (`Load`, line 133) and the mark (`Store`) are two
moves of a call.  Take any number of calls of `evaluatePod`, at least one, on
offending pods with one UID, started in a state where that UID is unmarked, and
any interleaving of their moves and of ends of `deletePod` goroutines in which
every call returns and no `deletePod` for that UID returns.  Then exactly one
`deletePod` is started if and only if at no point two calls are both between
their check and their mark; and in that case the UID ends marked and one call
alone, on a pod of the list, has sent its detection message and started
`deletePod`, every other call having returned at the check. -/
theorem exclusive_evaluations_proceed_once (w : World) (u : UID) (pods : List Pod)
    (sched : List Move) (hne : pods ≠ []) (hnew : u ∉ w.seenPods)
    (hpods : ∀ p ∈ pods, p.UID = u ∧ Offending p)
    (hrel : ∀ pod err, Move.finish pod err ∈ sched → pod.UID ≠ u)
    (hdone : allDone (runSchedule (startAll w pods) sched).threads = true) :
    ((spawns (emitted w (runSchedule (startAll w pods) sched).world)).length = 1 ↔
      exclusive (startAll w pods) sched = true) ∧
    (exclusive (startAll w pods) sched = true →
      u ∈ (runSchedule (startAll w pods) sched).world.seenPods ∧
      ∃ p n, p ∈ pods ∧
        spawns (emitted w (runSchedule (startAll w pods) sched).world) = [p] ∧
        detections (emitted w (runSchedule (startAll w pods) sched).world) = [n] ∧
        n.pod = p) := by
  have hmap : (startAll w pods).threads.map Thread.pod = pods := by
    simp [startAll, Function.comp_def]
  have hpods0 : ∀ p ∈ (startAll w pods).threads.map Thread.pod, p.UID = u ∧ Offending p := by
    rw [hmap]
    exact hpods
  have hoff0 : ∀ p ∈ (startAll w pods).threads.map Thread.pod, Offending p :=
    fun p hp => (hpods0 p hp).2
  have hw0 : (startAll w pods).world = w := rfl
  obtain ⟨hmapF, _, _⟩ := run_measure sched (startAll w pods) hoff0
  have hphase0 : Phase w u (startAll w pods) := by
    refine ⟨[], by simp [hw0], Or.inl ⟨hnew, ?_, rfl, rfl⟩⟩
    intro t ht
    have ht2 : ∃ a ∈ pods, (⟨a, EvalPc.entry⟩ : Thread) = t := by
      simpa [startAll] using ht
    obtain ⟨a, _, hta⟩ := ht2
    rw [← hta]
    simp
  have hgood : exclusive (startAll w pods) sched = true →
      u ∈ (runSchedule (startAll w pods) sched).world.seenPods ∧
      ∃ p n, p ∈ pods ∧
        spawns (emitted w (runSchedule (startAll w pods) sched).world) = [p] ∧
        detections (emitted w (runSchedule (startAll w pods) sched).world) = [n] ∧
        n.pod = p := by
    intro hex
    obtain ⟨es, htr, hAB⟩ := phase_run w u sched (startAll w pods) hpods0 hphase0 hex hrel
    rw [emitted_of_trace htr]
    rcases hAB with ⟨_, hnd, _, _⟩ | ⟨hu, _, p, n, hp, hsp, hdet, hn⟩
    · exfalso
      have hts : (runSchedule (startAll w pods) sched).threads ≠ [] := by
        intro hnil
        rw [hnil, hmap] at hmapF
        exact hne hmapF.symm
      obtain ⟨t, ht⟩ := List.exists_mem_of_ne_nil _ hts
      exact hnd t ht (allDone_mem _ hdone t ht)
    · rw [hmapF, hmap] at hp
      exact ⟨hu, p, n, hp, hsp, hdet, hn⟩
  refine ⟨⟨?_, ?_⟩, hgood⟩
  · intro hone
    obtain ⟨es, htr⟩ := run_trace sched (startAll w pods) hoff0
    rw [hw0] at htr
    rw [emitted_of_trace htr] at hone
    apply exclusive_of_bound sched (startAll w pods) (spawns w.trace).length hoff0
      (Nat.le_refl _)
    rw [allDone_checkedCount _ hdone, htr, spawns_append, List.length_append, hone]
  · intro hex
    obtain ⟨_, p, n, _, hsp, _, _⟩ := hgood hex
    rw [hsp]
    rfl

/-- C9 amended, at three calls on `podFailedCrash` while a `deletePod` for
`podCrashLoop`, another UID, is running and returns in between: the second and
third call check only after the first has marked. -/
theorem exclusive_evaluations_proceed_once_witness :
    (spawns (emitted (evaluatePod World.init podCrashLoop)
      (runSchedule
        (startAll (evaluatePod World.init podCrashLoop)
          [podFailedCrash, podFailedCrash, podFailedCrash])
        [Move.eval 0, Move.finish podCrashLoop none, Move.eval 0, Move.eval 2, Move.eval 1,
         Move.eval 2, Move.eval 1]).world)).length = 1 :=
  (exclusive_evaluations_proceed_once (evaluatePod World.init podCrashLoop) "uid-1"
    [podFailedCrash, podFailedCrash, podFailedCrash]
    [Move.eval 0, Move.finish podCrashLoop none, Move.eval 0, Move.eval 2, Move.eval 1,
     Move.eval 2, Move.eval 1]
    (by simp) (by decide)
    (by
      intro p hp
      have hp2 : p = podFailedCrash := by simpa using hp
      rw [hp2]
      exact ⟨rfl, Or.inl rfl⟩)
    (by
      intro pod err hm
      have hm2 : pod = podCrashLoop ∧ err = none := by simpa using hm
      rw [hm2.1]
      decide)
    (by decide)).1.2 (by decide)

end KubeJanitor
